import Mathlib

/-!
# Verification of the GameEngine boomerang controller and moving-platform path follower

Shallow embedding of `src/Gameplay/Components/MovingPlatform.cpp` and
`src/Gameplay/Components/BoomerangBehavior.cpp`.

Modelling conventions:
* `float` scalars are modelled exactly: by `ℚ` for the platform code (whose
  claims are about control flow and polynomial evaluation) and by `ℝ` for the
  boomerang seek code (which normalizes vectors, i.e. uses square roots).
* `std::vector` indexing (`operator[]`) is modelled by an `Option`-valued
  lookup; an out-of-bounds access is undefined behaviour in C++ and is
  modelled as `none` propagating out of the tick.
* Null `shared_ptr` dereference and `glm::normalize` of the zero vector
  (division by zero, NaN) are the two undefined-behaviour sources in
  `BoomerangBehavior`; a tick is modelled in `Except SeekErr`, with
  `.nullDeref` and `.normZero` marking the two.
* Side effects on collaborators (rigid body, spatial entity) are modelled as
  an explicit effect list produced by each call.
-/

/-! ## Vectors over ℚ (platform code) -/

/-- `glm::vec3` for the moving-platform code, with exact rational scalars. -/
structure QVec3 where
  x : ℚ
  y : ℚ
  z : ℚ
deriving DecidableEq, Repr

namespace QVec3

instance : Add QVec3 := ⟨fun a b => ⟨a.x + b.x, a.y + b.y, a.z + b.z⟩⟩
instance : Neg QVec3 := ⟨fun a => ⟨-a.x, -a.y, -a.z⟩⟩
instance : Sub QVec3 := ⟨fun a b => ⟨a.x - b.x, a.y - b.y, a.z - b.z⟩⟩
instance : SMul ℚ QVec3 := ⟨fun c a => ⟨c * a.x, c * a.y, c * a.z⟩⟩
instance : Zero QVec3 := ⟨⟨0, 0, 0⟩⟩

end QVec3

/-! ## MovingPlatform data model (`MovingPlatform.h`) -/

/-- `MovingPlatform::MovementMode`. -/
inductive MovementMode where
  | LERP
  | CATMULL
  | BEZIER
deriving DecidableEq, Repr

/-- The mutable fields of a `MovingPlatform` component.
`currentInd`/`nextInd` are C++ `int`, modelled as `ℤ`; `timer`, `t`,
`duration` are `float`, modelled as `ℚ`. The member `t` is not set by the
constructor (uninitialized in C++); every read of it in `Update` happens
after an assignment, so the model's initial value `0` is never observable. -/
structure MovingPlatform where
  timer : ℚ
  t : ℚ
  duration : ℚ
  forward : Bool
  nodes : List QVec3
  currentMode : MovementMode
  currentInd : ℤ
  nextInd : ℤ
deriving DecidableEq, Repr

namespace MovingPlatform

/-- The `MovingPlatform()` constructor: LERP, indices 0, zero duration and
timer, forward. -/
def init : MovingPlatform :=
  { timer := 0, t := 0, duration := 0, forward := true, nodes := [],
    currentMode := .LERP, currentInd := 0, nextInd := 0 }

/-- `nodes[i]` for a C++ `int` index: out-of-bounds access is UB, `none`. -/
def getNode (l : List QVec3) (i : ℤ) : Option QVec3 :=
  if h : 0 ≤ i ∧ i < l.length then some (l.get ⟨i.toNat, by omega⟩) else none

/-- `MovingPlatform::Lerp` (reads the member `t` — passed explicitly). -/
def Lerp (t : ℚ) (p0 p1 : QVec3) : QVec3 :=
  (1 - t) • p0 + t • p1

/-- `MovingPlatform::Catmull` (reads the member `t` — passed explicitly). -/
def Catmull (t : ℚ) (p0 p1 p2 p3 : QVec3) : QVec3 :=
  (1/2 : ℚ) • ((2 : ℚ) • p1 + t • (-p0 + p2)
    + (t * t) • ((2 : ℚ) • p0 - (5 : ℚ) • p1 + (4 : ℚ) • p2 - p3)
    + (t * t * t) • (-p0 + (3 : ℚ) • p1 - (3 : ℚ) • p2 + p3))

/-- `MovingPlatform::Bezier` (reads the member `t` — passed explicitly).
This is the true cubic Bezier basis in expanded (monomial) form; the
function exists in the source but is never called by `Update`. -/
def Bezier (t : ℚ) (p0 p1 p2 p3 : QVec3) : QVec3 :=
  p0 + t • ((3 : ℚ) • (-p0) + (3 : ℚ) • p1)
    + (t * t) • ((3 : ℚ) • p0 - (6 : ℚ) • p1 + (3 : ℚ) • p2)
    + (t * t * t) • (-p0 + (3 : ℚ) • p1 - (3 : ℚ) • p2 + p3)

/-- `MovingPlatform::SetMode`: resets `timer`, `currentInd`, `nextInd` and
switches the basis. It does not touch `forward`, `nodes`, `duration` or `t`. -/
def SetMode (s : MovingPlatform) (inMode : MovementMode) : MovingPlatform :=
  { s with timer := 0, currentMode := inMode, currentInd := 0, nextInd := 1 }

/-- `MovingPlatform::SetNodes`. -/
def SetNodes (s : MovingPlatform) (inNodes : List QVec3) (inDuration : ℚ) : MovingPlatform :=
  { s with nodes := inNodes, duration := inDuration }

/-- Result of the boundary-advance block of `Update`: the new values of
`timer`, `t`, `currentInd` and `forward`. -/
structure Adv where
  timer : ℚ
  t : ℚ
  ci : ℤ
  fwd : Bool
deriving DecidableEq, Repr

/-- The boundary-advance block shared by the three cases of `Update`
(the `timer += deltaTime; t = timer / duration; if (t > 1) { ... }`
block). `flipAt i` is the mode-specific forward flip test on the
incremented index (`i >= size-1` for LERP, `i+1 >= size` for CATMULL,
`i+3 >= size` for BEZIER).
The source compares a C++ `int` against `nodes.size()` (a `size_t`), which
promotes the `int` to unsigned; on every state this development evaluates
the index is nonnegative, where the promotion is the identity, so the
comparison is modelled directly over `ℤ`. -/
def advance (s : MovingPlatform) (deltaTime : ℚ) (flipAt : ℤ → Bool) : Adv :=
  let timer := s.timer + deltaTime
  let t := timer / s.duration
  if t > 1 then
    if s.forward then
      let ci := s.currentInd + 1
      ⟨0, 0, ci, if flipAt ci then false else s.forward⟩
    else
      let ci := s.currentInd - 1
      ⟨0, 0, ci, if ci = 0 then true else s.forward⟩
  else
    ⟨timer, t, s.currentInd, s.forward⟩

/-- The `case LERP` block of `MovingPlatform::Update`. -/
def updateLerpCase (s : MovingPlatform) (deltaTime : ℚ) :
    Option (MovingPlatform × Option QVec3) :=
  let a := advance s deltaTime (fun i => i ≥ (s.nodes.length : ℤ) - 1)
  let s' := { s with timer := a.timer, t := a.t, currentInd := a.ci, forward := a.fwd }
  if a.fwd then do
    let p0 ← getNode s.nodes a.ci
    let p1 ← getNode s.nodes (a.ci + 1)
    some (s', some (Lerp a.t p0 p1))
  else do
    let p0 ← getNode s.nodes a.ci
    let p1 ← getNode s.nodes (a.ci - 1)
    some (s', some (Lerp a.t p0 p1))

/-- The `case CATMULL` block of `MovingPlatform::Update`. -/
def updateCatmullCase (s : MovingPlatform) (deltaTime : ℚ) :
    Option (MovingPlatform × Option QVec3) :=
  let a := advance s deltaTime (fun i => i + 1 ≥ (s.nodes.length : ℤ))
  let s' := { s with timer := a.timer, t := a.t, currentInd := a.ci, forward := a.fwd }
  if s.nodes.length < 4 then some (s', none)
  else if a.fwd then do
    let p0 ← getNode s.nodes (if a.ci = 0 then (s.nodes.length : ℤ) - 1 else a.ci - 1)
    let p1 ← getNode s.nodes a.ci
    let p2 ← getNode s.nodes ((a.ci + 1) % (s.nodes.length : ℤ))
    let p3 ← getNode s.nodes ((a.ci + 2) % (s.nodes.length : ℤ))
    some (s', some (Catmull a.t p0 p1 p2 p3))
  else do
    let p0 ← getNode s.nodes (if a.ci = (s.nodes.length : ℤ) - 1 then 0 else a.ci + 1)
    let p1 ← getNode s.nodes a.ci
    let p2 ← getNode s.nodes (|a.ci - 1| % (s.nodes.length : ℤ))
    let p3 ← getNode s.nodes (|a.ci - 2| % (s.nodes.length : ℤ))
    some (s', some (Catmull a.t p0 p1 p2 p3))

/-- The `case BEZIER` block of `MovingPlatform::Update`. Note the final
call: it evaluates `Catmull`, not `Bezier`. -/
def updateBezierCase (s : MovingPlatform) (deltaTime : ℚ) :
    Option (MovingPlatform × Option QVec3) :=
  let a := advance s deltaTime (fun i => i + 3 ≥ (s.nodes.length : ℤ))
  let s' := { s with timer := a.timer, t := a.t, currentInd := a.ci, forward := a.fwd }
  if s.nodes.length < 4 then some (s', none)
  else if a.fwd then do
    let p0 ← getNode s.nodes a.ci
    let p1 ← getNode s.nodes (a.ci + 1)
    let p2 ← getNode s.nodes (a.ci + 2)
    let p3 ← getNode s.nodes (a.ci + 3)
    some (s', some (Catmull a.t p0 p1 p2 p3))
  else do
    let p0 ← getNode s.nodes (a.ci + 2)
    let p1 ← getNode s.nodes (a.ci + 1)
    let p2 ← getNode s.nodes a.ci
    let p3 ← getNode s.nodes (a.ci - 1)
    some (s', some (Catmull a.t p0 p1 p2 p3))

/-- `MovingPlatform::Update`. Returns `none` on an out-of-bounds node
access (UB in the source); otherwise `some (s', w)` where `s'` is the
updated component state and `w` is the position written to the host game
object this tick (`none` when `SetPosition` was not called). -/
def Update (s : MovingPlatform) (deltaTime : ℚ) :
    Option (MovingPlatform × Option QVec3) :=
  if s.nodes.length = 0 ∨ s.duration = 0 then some (s, none)
  else
    match s.currentMode with
    | .LERP => updateLerpCase s deltaTime
    | .CATMULL => updateCatmullCase s deltaTime
    | .BEZIER => updateBezierCase s deltaTime

/-- Run a sequence of `Update` ticks, keeping only the component state. -/
def run (s : MovingPlatform) : List ℚ → Option MovingPlatform
  | [] => some s
  | dt :: rest => do
    let (s', _) ← Update s dt
    run s' rest

/-- Run a sequence of `Update` ticks, collecting the per-tick position
writes (`none` per tick = no `SetPosition` call that tick). -/
def runWrites (s : MovingPlatform) : List ℚ → Option (MovingPlatform × List (Option QVec3))
  | [] => some (s, [])
  | dt :: rest => do
    let (s', w) ← Update s dt
    let (s'', ws) ← runWrites s' rest
    some (s'', w :: ws)

end MovingPlatform

/-! ## Vectors over ℝ (boomerang code) -/

/-- `glm::vec3` for the boomerang code, with real scalars (the seek law
normalizes vectors, so square roots appear). -/
structure RVec3 where
  x : ℝ
  y : ℝ
  z : ℝ

namespace RVec3

instance : Add RVec3 := ⟨fun a b => ⟨a.x + b.x, a.y + b.y, a.z + b.z⟩⟩
instance : Neg RVec3 := ⟨fun a => ⟨-a.x, -a.y, -a.z⟩⟩
instance : Sub RVec3 := ⟨fun a b => ⟨a.x - b.x, a.y - b.y, a.z - b.z⟩⟩
instance : SMul ℝ RVec3 := ⟨fun c a => ⟨c * a.x, c * a.y, c * a.z⟩⟩
instance : Zero RVec3 := ⟨⟨0, 0, 0⟩⟩

/-- Euclidean length, `glm::length`. -/
noncomputable def len (v : RVec3) : ℝ := Real.sqrt (v.x ^ 2 + v.y ^ 2 + v.z ^ 2)

/-- `v / ‖v‖`: the value `glm::normalize` computes on a nonzero vector. -/
noncomputable def unit (v : RVec3) : RVec3 := (len v)⁻¹ • v

end RVec3

/-! ## BoomerangBehavior data model (`BoomerangBehavior.h` / `.cpp`) -/

/-- The sources of undefined behaviour in a `BoomerangBehavior` tick:
dereferencing a null `shared_ptr`, or `glm::normalize` of the zero vector
(division by zero, NaN). -/
inductive SeekErr where
  | nullDeref
  | normZero
deriving DecidableEq, Repr

open Classical in
/-- `glm::normalize`: undefined (NaN, modelled `.error .normZero`) on the
zero vector, `v / ‖v‖` otherwise. The source never checks for zero. -/
noncomputable def glmNormalize (v : RVec3) : Except SeekErr RVec3 :=
  if v = 0 then .error .normZero else .ok (RVec3.unit v)

/-- `BoomerangBehavior::boomerangState`. -/
inductive BoomState where
  | FORWARD
  | POINTTRACK
  | LOCKTRACK
  | RETURNING
  | INACTIVE
deriving DecidableEq, Repr

/-- Entity references (`GameObject::Sptr`): an opaque id, or `none` for a
null handle (never set, or `FindObjectByName` miss). -/
abbrev EntityRef := Option ℕ

/-- Side effects a `BoomerangBehavior` call issues to its collaborators
(the projectile's rigid body and spatial entity). -/
inductive BoomEffect where
  | applyForce (f : RVec3)
  | setPosition (p : RVec3)
  | setLinearVelocity (v : RVec3)

/-- The state of a `BoomerangBehavior` component: the private fields of the
class that the core state machine reads and writes. Field defaults are the
in-class initializers of `BoomerangBehavior.h` (`_targetPoint` has no
initializer in the source; its model default is never read before a write). -/
structure Boomerang where
  state : BoomState := .INACTIVE
  targetLocked : Bool := false
  returning : Bool := false
  targetPoint : RVec3 := ⟨0, 0, 0⟩
  targetEntity : EntityRef := none
  player : EntityRef := none
  boomerangAcceleration : ℝ := 10000
  inactivePosition : RVec3 := ⟨0, 0, -100⟩
  projectileSpacing : ℝ := 1
  boomerangLaunchForce : ℝ := 1

/-- The per-tick inputs a `BoomerangBehavior::Update` reads from its
collaborators: the projectile's own position, the rigid body's linear
velocity, and the current position of any live entity. -/
structure BoomEnv where
  selfPos : RVec3
  velocity : RVec3
  posOf : ℕ → RVec3

namespace Boomerang

/-- `BoomerangBehavior::UpdateTarget`: store the point; enter POINTTRACK
only while no target is locked. -/
def UpdateTarget (s : Boomerang) (newTarget : RVec3) : Boomerang :=
  { s with targetPoint := newTarget,
           state := if !s.targetLocked then .POINTTRACK else s.state }

/-- `BoomerangBehavior::LockTarget`: store the entity, set the lock flag;
enter LOCKTRACK only while not returning. -/
def LockTarget (s : Boomerang) (targetEntity : EntityRef) : Boomerang :=
  { s with targetEntity := targetEntity, targetLocked := true,
           state := if !s.returning then .LOCKTRACK else s.state }

/-- `BoomerangBehavior::returnBoomerang`. -/
def returnBoomerang (s : Boomerang) : Boomerang :=
  { s with returning := true, targetLocked := true, state := .RETURNING }

/-- `BoomerangBehavior::makeBoomerangInactive`: park the projectile, zero
its velocity, state INACTIVE. Note it does not reset `_returning` or
`_targetLocked`. -/
def makeBoomerangInactive (s : Boomerang) : Boomerang × List BoomEffect :=
  ({ s with state := .INACTIVE },
   [.setPosition s.inactivePosition, .setLinearVelocity ⟨0, 0, 0⟩])

/-- `BoomerangBehavior::throwWang`: state FORWARD, clear both flags,
teleport ahead of the player and launch. `cameraLocalForward` is read from
the player's camera (an external collaborator), passed as a parameter. -/
def throwWang (s : Boomerang) (playerPosition cameraLocalForward : RVec3) :
    Boomerang × List BoomEffect :=
  ({ s with state := .FORWARD, targetLocked := false, returning := false },
   [.setPosition (playerPosition + s.projectileSpacing • cameraLocalForward),
    .setLinearVelocity ⟨0, 0, 0⟩,
    .setLinearVelocity (s.boomerangLaunchForce • cameraLocalForward)])

/-- `BoomerangBehavior::getReadyToThrow`. -/
def getReadyToThrow (s : Boomerang) : Bool :=
  if s.state = .INACTIVE then true else false

/-- `BoomerangBehavior::OnCollisionEnter`: unconditionally return. -/
def OnCollisionEnter (s : Boomerang) : Boomerang :=
  returnBoomerang s

/-- `BoomerangBehavior::SetAcceleration`. -/
def SetAcceleration (s : Boomerang) (newAccel : ℝ) : Boomerang :=
  { s with boomerangAcceleration := newAccel }

/-- `BoomerangBehavior::SetInactivePosition`. -/
def SetInactivePosition (s : Boomerang) (newPosition : RVec3) : Boomerang :=
  { s with inactivePosition := newPosition }

/-- `BoomerangBehavior::Seek`: steer toward `_targetPoint`. Three
unguarded normalizations; the applied force is
`normalize(normalize(target−pos) − normalize(vel)) * accel * dt` plus the
constant anti-gravity term `(0,0,9.8)`. Modifies no component state. -/
noncomputable def Seek (s : Boomerang) (selfPos velocity : RVec3) (deltaTime : ℝ) :
    Except SeekErr (List BoomEffect) := do
  let desired ← glmNormalize (s.targetPoint - selfPos)
  let current ← glmNormalize velocity
  let applied ← glmNormalize (desired - current)
  return [.applyForce ((s.boomerangAcceleration * deltaTime) • applied + ⟨0, 0, 9.8⟩)]

/-- `BoomerangBehavior::defyGravity`. -/
def defyGravity : List BoomEffect := [.applyForce ⟨0, 0, 9.81⟩]

/-- `BoomerangBehavior::Update`: the per-tick state machine dispatch.
LOCKTRACK dereferences `_targetEntity` and RETURNING dereferences
`_player` with no null guard (`.error .nullDeref` on a null handle).
INACTIVE falls into the switch's `default` and does nothing. -/
noncomputable def Update (s : Boomerang) (env : BoomEnv) (deltaTime : ℝ) :
    Except SeekErr (Boomerang × List BoomEffect) :=
  match s.state with
  | .FORWARD => .ok (s, defyGravity)
  | .POINTTRACK => do
    let es ← Seek s env.selfPos env.velocity deltaTime
    return (s, es)
  | .LOCKTRACK =>
    match s.targetEntity with
    | none => .error .nullDeref
    | some e => do
      let s' := UpdateTarget s (env.posOf e)
      let es ← Seek s' env.selfPos env.velocity deltaTime
      return (s', es)
  | .RETURNING =>
    match s.player with
    | none => .error .nullDeref
    | some p => do
      let s' := UpdateTarget s (env.posOf p)
      let es ← Seek s' env.selfPos env.velocity deltaTime
      return (s', es)
  | .INACTIVE => .ok (s, [])

end Boomerang

/-! ## Call sequences on the boomerang state machine -/

/-- One public mutating call on `BoomerangBehavior` (a successful `Update`
tick changes component state exactly as an `updateTarget` with the sampled
position does, so this alphabet also covers ticks; see
`Boomerang.Update`). -/
inductive BoomOp where
  | updateTarget (p : RVec3)
  | lockTarget (e : EntityRef)
  | returnB
  | collide
  | makeInactive
  | throw (pos fwd : RVec3)

/-- Apply one call, keeping the component state. -/
def applyOp (s : Boomerang) : BoomOp → Boomerang
  | .updateTarget p => s.UpdateTarget p
  | .lockTarget e => s.LockTarget e
  | .returnB => s.returnBoomerang
  | .collide => s.OnCollisionEnter
  | .makeInactive => (s.makeBoomerangInactive).1
  | .throw p f => (s.throwWang p f).1

/-- Apply a sequence of calls, left to right. -/
def applyOps (s : Boomerang) (ops : List BoomOp) : Boomerang :=
  ops.foldl applyOp s

/-- Constructor test: is this call neither `makeBoomerangInactive` nor
`throwWang`? -/
def opKeepsReturn : BoomOp → Bool
  | .makeInactive => false
  | .throw _ _ => false
  | _ => true

/-! ## Derived selection functions (read blocks of `MovingPlatform::Update`) -/

/-- The four control points the BEZIER case of `Update` reads, as a
function of the post-advance `currentInd` and `forward`
(`nodes[ci..ci+3]` forward, `nodes[ci+2], nodes[ci+1], nodes[ci],
nodes[ci-1]` backward). -/
def MovingPlatform.bezierPoints (nds : List QVec3) (ci : ℤ) (fwd : Bool) :
    Option (QVec3 × QVec3 × QVec3 × QVec3) :=
  if fwd then do
    let p0 ← MovingPlatform.getNode nds ci
    let p1 ← MovingPlatform.getNode nds (ci + 1)
    let p2 ← MovingPlatform.getNode nds (ci + 2)
    let p3 ← MovingPlatform.getNode nds (ci + 3)
    some (p0, p1, p2, p3)
  else do
    let p0 ← MovingPlatform.getNode nds (ci + 2)
    let p1 ← MovingPlatform.getNode nds (ci + 1)
    let p2 ← MovingPlatform.getNode nds ci
    let p3 ← MovingPlatform.getNode nds (ci - 1)
    some (p0, p1, p2, p3)

/-- The two control points the LERP case of `Update` reads
(`(nodes[ci], nodes[ci+1])` forward, `(nodes[ci], nodes[ci-1])`
backward) — the current interpolation segment. -/
def MovingPlatform.lerpSegment (s : MovingPlatform) : Option (QVec3 × QVec3) :=
  if s.forward then do
    let p0 ← MovingPlatform.getNode s.nodes s.currentInd
    let p1 ← MovingPlatform.getNode s.nodes (s.currentInd + 1)
    some (p0, p1)
  else do
    let p0 ← MovingPlatform.getNode s.nodes s.currentInd
    let p1 ← MovingPlatform.getNode s.nodes (s.currentInd - 1)
    some (p0, p1)

/-- The `(currentInd, forward)` pairs a 3-node LERP platform cycles
through, in traversal order. -/
def lerp3Cycle : List (ℤ × Bool) := [(0, true), (1, true), (2, false), (1, false)]

/-- Successor along the 3-node LERP ping-pong cycle. -/
def cycNext (p : ℤ × Bool) : ℤ × Bool :=
  if p = ((0 : ℤ), true) then (1, true)
  else if p = ((1 : ℤ), true) then (2, false)
  else if p = ((2 : ℤ), false) then (1, false)
  else if p = ((1 : ℤ), false) then (0, true)
  else p

/-- The interpolation segment belonging to each cycle position, for nodes
`[u, v, w]`. -/
def cycSeg (u v w : QVec3) (p : ℤ × Bool) : QVec3 × QVec3 :=
  if p = ((0 : ℤ), true) then (u, v)
  else if p = ((1 : ℤ), true) then (v, w)
  else if p = ((2 : ℤ), false) then (w, v)
  else if p = ((1 : ℤ), false) then (v, u)
  else (u, v)

/-! ## Basic algebraic lemmas for the vector types -/

namespace QVec3

@[simp] theorem qadd_def (a b : QVec3) : a + b = ⟨a.x + b.x, a.y + b.y, a.z + b.z⟩ := rfl

@[simp] theorem qneg_def (a : QVec3) : -a = ⟨-a.x, -a.y, -a.z⟩ := rfl

@[simp] theorem qsub_def (a b : QVec3) : a - b = ⟨a.x - b.x, a.y - b.y, a.z - b.z⟩ := rfl

@[simp] theorem qsmul_def (c : ℚ) (a : QVec3) : c • a = ⟨c * a.x, c * a.y, c * a.z⟩ := rfl

@[simp] theorem qzero_def : (0 : QVec3) = ⟨0, 0, 0⟩ := rfl

end QVec3

namespace RVec3

@[simp] theorem radd_def (a b : RVec3) : a + b = ⟨a.x + b.x, a.y + b.y, a.z + b.z⟩ := rfl

@[simp] theorem rneg_def (a : RVec3) : -a = ⟨-a.x, -a.y, -a.z⟩ := rfl

@[simp] theorem rsub_def (a b : RVec3) : a - b = ⟨a.x - b.x, a.y - b.y, a.z - b.z⟩ := rfl

@[simp] theorem rsmul_def (c : ℝ) (a : RVec3) : c • a = ⟨c * a.x, c * a.y, c * a.z⟩ := rfl

@[simp] theorem rzero_def : (0 : RVec3) = ⟨0, 0, 0⟩ := rfl

end RVec3

/-! ## C6 — `SetMode` restart -/

/-- C6 counterexample: the claim says `SetMode` performs a full restart
with `forward == true` afterwards. On a platform currently traversing
backward, `SetMode` leaves `forward == false`: the source resets `timer`,
`currentInd`, `nextInd` and the mode, but never touches `forward`. -/
theorem setMode_preserves_forward_cex :
    (MovingPlatform.SetMode
      { timer := 1, t := 1/2, duration := 2, forward := false,
        nodes := [⟨0,0,0⟩, ⟨1,0,0⟩], currentMode := .LERP,
        currentInd := 1, nextInd := 0 } .CATMULL).forward ≠ true := by
  simp [MovingPlatform.SetMode]

/-- C6 (amended): `SetMode` resets `timer` to 0, `currentInd` to 0 (and
`nextInd` to 1) and changes the interpolation basis, but preserves
`forward` (and `nodes`, `duration`, `t`) — it is a restart of segment
progress and index, not of traversal direction. -/
theorem setMode_restart_except_forward (s : MovingPlatform) (m : MovementMode) :
    (s.SetMode m).timer = 0 ∧ (s.SetMode m).currentInd = 0 ∧
    (s.SetMode m).nextInd = 1 ∧ (s.SetMode m).currentMode = m ∧
    (s.SetMode m).forward = s.forward ∧ (s.SetMode m).nodes = s.nodes ∧
    (s.SetMode m).duration = s.duration ∧ (s.SetMode m).t = s.t :=
  ⟨rfl, rfl, rfl, rfl, rfl, rfl, rfl, rfl⟩

/-! ## C10 — collision always returns -/

/-- C10: `OnCollisionEnter` in any state (including INACTIVE)
unconditionally invokes `returnBoomerang`, leaving state RETURNING,
`returning = true`, `targetLocked = true`; consequently
`getReadyToThrow` reports `false` afterwards even if the boomerang was
parked and never thrown. -/
theorem collision_always_returns (s : Boomerang) :
    (s.OnCollisionEnter).state = .RETURNING ∧
    (s.OnCollisionEnter).returning = true ∧
    (s.OnCollisionEnter).targetLocked = true ∧
    (s.OnCollisionEnter).getReadyToThrow = false := by
  refine ⟨rfl, rfl, rfl, ?_⟩
  simp [Boomerang.OnCollisionEnter, Boomerang.returnBoomerang, Boomerang.getReadyToThrow]

/-! ## C2 — unguarded entity dereference in `Update` -/

/-- C2 (code bug evidence): a tick in LOCK_TRACK with a null
`_targetEntity`, or in RETURNING with a null `_player` (e.g.
`FindObjectByName` found nothing in `Awake`), dereferences the null
handle: the source has no guard, so the tick is undefined behaviour
instead of the spec's "skip steering for that tick". -/
theorem update_null_reference_crashes :
    Boomerang.Update { state := .LOCKTRACK, targetLocked := true }
      ⟨⟨0,0,0⟩, ⟨0,0,0⟩, fun _ => ⟨0,0,0⟩⟩ 1 = .error .nullDeref ∧
    Boomerang.Update { state := .RETURNING, returning := true, targetLocked := true }
      ⟨⟨0,0,0⟩, ⟨0,0,0⟩, fun _ => ⟨0,0,0⟩⟩ 1 = .error .nullDeref :=
  ⟨rfl, rfl⟩

/-! ## C8 — what an INACTIVE tick actually does -/

/-- C8 counterexample: the claim says every `Update` tick in INACTIVE
force-sets the position to `_inactivePosition` and zeroes the linear
velocity. In the source, INACTIVE falls into the switch's `default` and
the tick issues no effect at all: no `SetPosition`, no
`SetLinearVelocity`, no force. -/
theorem inactive_update_noop_cex :
    Boomerang.Update {} ⟨⟨0,0,0⟩, ⟨0,0,0⟩, fun _ => ⟨0,0,0⟩⟩ 1 = .ok ({}, []) ∧
    (¬ ∃ p, BoomEffect.setPosition p ∈ ([] : List BoomEffect)) := by
  exact ⟨rfl, by simp⟩

/-- C8 (amended): an `Update` tick in state INACTIVE is a complete no-op
(state unchanged, no effects); the force-set of the position to the
parking spot and the zeroing of linear velocity happen once, inside
`makeBoomerangInactive`, not per tick. -/
theorem inactive_update_noop_park_on_makeInactive
    (s : Boomerang) (env : BoomEnv) (dt : ℝ) (h : s.state = .INACTIVE) :
    s.Update env dt = .ok (s, []) ∧
    s.makeBoomerangInactive =
      ({ s with state := .INACTIVE },
       [.setPosition s.inactivePosition, .setLinearVelocity ⟨0, 0, 0⟩]) := by
  refine ⟨?_, rfl⟩
  unfold Boomerang.Update
  rw [h]

/-- Witness for C8's amended theorem at the freshly constructed component
(initial state INACTIVE). -/
theorem inactive_update_noop_park_on_makeInactive_witness :
    Boomerang.Update {} ⟨⟨0,0,0⟩, ⟨0,0,0⟩, fun _ => ⟨0,0,0⟩⟩ 1 = .ok ({}, []) ∧
    Boomerang.makeBoomerangInactive {} =
      ({ ({} : Boomerang) with state := .INACTIVE },
       [.setPosition ({} : Boomerang).inactivePosition, .setLinearVelocity ⟨0, 0, 0⟩]) :=
  inactive_update_noop_park_on_makeInactive {} ⟨⟨0,0,0⟩, ⟨0,0,0⟩, fun _ => ⟨0,0,0⟩⟩ 1 rfl

/-! ## C7 — degenerate platform configurations -/

/-- C7 counterexample: the claim says any configuration with
`nodes.size() < 2` is a per-tick no-op with no out-of-bounds access. The
source's guard only checks `nodes.size() == 0`: with exactly one node in
LERP mode the very first tick reads `nodes[currentInd + 1] = nodes[1]`,
out of bounds (modelled `none` = UB). -/
theorem lerp_single_node_oob_cex :
    MovingPlatform.Update
      { timer := 0, t := 0, duration := 1, forward := true,
        nodes := [⟨0,0,0⟩], currentMode := .LERP,
        currentInd := 0, nextInd := 0 } (1/2) = none := by
  norm_num [MovingPlatform.Update, MovingPlatform.updateLerpCase,
    MovingPlatform.advance, MovingPlatform.getNode]

/-! ## C1 — the return guard on `LockTarget` -/

/-- C1 counterexample: the claim carves out only `makeBoomerangInactive`
as an intervening call, but `throwWang` is also a public call and it
resets `_returning = false`. After `returnBoomerang(); throwWang(...)`,
a `LockTarget` moves the state to LOCKTRACK, not RETURNING. -/
theorem lockTarget_after_throw_escapes_returning_cex :
    (applyOps {} [.returnB, .throw ⟨0,0,0⟩ ⟨1,0,0⟩, .lockTarget (some 0)]).state
      = BoomState.LOCKTRACK ∧
    BoomState.LOCKTRACK ≠ BoomState.RETURNING := by
  exact ⟨rfl, by decide⟩

/-- The invariant that carries C1: once returning with a locked target and
state RETURNING, every public call other than `makeBoomerangInactive` and
`throwWang` preserves all three. -/
theorem applyOp_keeps_returning (s : Boomerang) (op : BoomOp)
    (hop : opKeepsReturn op = true)
    (hr : s.returning = true) (hl : s.targetLocked = true)
    (hs : s.state = .RETURNING) :
    (applyOp s op).returning = true ∧ (applyOp s op).targetLocked = true ∧
    (applyOp s op).state = .RETURNING := by
  cases op with
  | updateTarget p =>
    simp [applyOp, Boomerang.UpdateTarget, hr, hl, hs]
  | lockTarget e =>
    simp [applyOp, Boomerang.LockTarget, hr, hl, hs]
  | returnB =>
    simp [applyOp, Boomerang.returnBoomerang]
  | collide =>
    simp [applyOp, Boomerang.OnCollisionEnter, Boomerang.returnBoomerang]
  | makeInactive => simp [opKeepsReturn] at hop
  | throw pos fwd => simp [opKeepsReturn] at hop

/-- C1 invariant lifted to call sequences. -/
theorem applyOps_keeps_returning (ops : List BoomOp) (s : Boomerang)
    (hops : ∀ op ∈ ops, opKeepsReturn op = true)
    (hr : s.returning = true) (hl : s.targetLocked = true)
    (hs : s.state = .RETURNING) :
    (applyOps s ops).returning = true ∧ (applyOps s ops).targetLocked = true ∧
    (applyOps s ops).state = .RETURNING := by
  induction ops generalizing s with
  | nil => exact ⟨hr, hl, hs⟩
  | cons op rest ih =>
    have h1 := applyOp_keeps_returning s op (hops op (by simp)) hr hl hs
    exact ih (applyOp s op) (fun o ho => hops o (by simp [ho])) h1.1 h1.2.1 h1.2.2

/-- C1 (amended): once `returnBoomerang()` has been called and no
intervening `makeBoomerangInactive()` **or `throwWang()`** has occurred
(`throwWang` resets `_returning`), the state stays RETURNING, and every
subsequent `LockTarget(e)` still records `e` in `_targetEntity` and sets
`_targetLocked`, but leaves the state equal to RETURNING. -/
theorem returning_locks_state_machine (s : Boomerang) (ops : List BoomOp)
    (hops : ∀ op ∈ ops, opKeepsReturn op = true) :
    (applyOps (s.returnBoomerang) ops).state = .RETURNING ∧
    ∀ e, ((applyOps (s.returnBoomerang) ops).LockTarget e).state = .RETURNING ∧
         ((applyOps (s.returnBoomerang) ops).LockTarget e).targetEntity = e ∧
         ((applyOps (s.returnBoomerang) ops).LockTarget e).targetLocked = true := by
  have h := applyOps_keeps_returning ops (s.returnBoomerang) hops rfl rfl rfl
  refine ⟨h.2.2, fun e => ⟨?_, rfl, rfl⟩⟩
  simp [Boomerang.LockTarget, h.1, h.2.2]

/-- Witness for C1's amended theorem: a concrete call sequence (a point
update, a collision, and a lock) after `returnBoomerang` on a fresh
component. -/
theorem returning_locks_state_machine_witness :
    (applyOps (Boomerang.returnBoomerang {})
        [.updateTarget ⟨1,2,3⟩, .collide, .lockTarget (some 5)]).state = .RETURNING ∧
    ∀ e, ((applyOps (Boomerang.returnBoomerang {})
            [.updateTarget ⟨1,2,3⟩, .collide, .lockTarget (some 5)]).LockTarget e).state
            = .RETURNING ∧
         ((applyOps (Boomerang.returnBoomerang {})
            [.updateTarget ⟨1,2,3⟩, .collide, .lockTarget (some 5)]).LockTarget e).targetEntity
            = e ∧
         ((applyOps (Boomerang.returnBoomerang {})
            [.updateTarget ⟨1,2,3⟩, .collide, .lockTarget (some 5)]).LockTarget e).targetLocked
            = true :=
  returning_locks_state_machine {}
    [.updateTarget ⟨1,2,3⟩, .collide, .lockTarget (some 5)]
    (by simp [opKeepsReturn])

/-- Guard case of `Update`: with an empty node list or zero duration the
tick is a complete no-op (the source returns before touching anything). -/
theorem MovingPlatform.Update_guard_noop (s : MovingPlatform) (dt : ℚ)
    (h : s.nodes.length = 0 ∨ s.duration = 0) :
    s.Update dt = some (s, none) := by
  unfold MovingPlatform.Update
  rw [if_pos h]

/-- Past the guard, a LERP-mode tick runs the `case LERP` block. -/
theorem MovingPlatform.Update_eq_lerpCase (s : MovingPlatform) (dt : ℚ)
    (hg : ¬(s.nodes.length = 0 ∨ s.duration = 0)) (hm : s.currentMode = .LERP) :
    s.Update dt = s.updateLerpCase dt := by
  unfold MovingPlatform.Update
  rw [if_neg hg, hm]

/-- Past the guard, a CATMULL-mode tick runs the `case CATMULL` block. -/
theorem MovingPlatform.Update_eq_catmullCase (s : MovingPlatform) (dt : ℚ)
    (hg : ¬(s.nodes.length = 0 ∨ s.duration = 0)) (hm : s.currentMode = .CATMULL) :
    s.Update dt = s.updateCatmullCase dt := by
  unfold MovingPlatform.Update
  rw [if_neg hg, hm]

/-- Past the guard, a BEZIER-mode tick runs the `case BEZIER` block. -/
theorem MovingPlatform.Update_eq_bezierCase (s : MovingPlatform) (dt : ℚ)
    (hg : ¬(s.nodes.length = 0 ∨ s.duration = 0)) (hm : s.currentMode = .BEZIER) :
    s.Update dt = s.updateBezierCase dt := by
  unfold MovingPlatform.Update
  rw [if_neg hg, hm]

/-- CATMULL/BEZIER with fewer than 4 nodes: the tick may mutate `timer`,
`t`, `currentInd`, `forward`, but returns before any node read or
position write; configuration fields are untouched. -/
theorem MovingPlatform.Update_fewNodes (s : MovingPlatform) (dt : ℚ)
    (hm : s.currentMode = .CATMULL ∨ s.currentMode = .BEZIER)
    (hn : s.nodes.length < 4) :
    ∃ s', s.Update dt = some (s', none) ∧ s'.nodes = s.nodes ∧
      s'.duration = s.duration ∧ s'.currentMode = s.currentMode := by
  by_cases hg : s.nodes.length = 0 ∨ s.duration = 0
  · exact ⟨s, MovingPlatform.Update_guard_noop s dt hg, rfl, rfl, rfl⟩
  · rcases hm with hm | hm
    · rw [MovingPlatform.Update_eq_catmullCase s dt hg hm]
      unfold MovingPlatform.updateCatmullCase
      rw [if_pos hn]
      exact ⟨_, rfl, rfl, rfl, rfl⟩
    · rw [MovingPlatform.Update_eq_bezierCase s dt hg hm]
      unfold MovingPlatform.updateBezierCase
      rw [if_pos hn]
      exact ⟨_, rfl, rfl, rfl, rfl⟩

/-- Guard case lifted to arbitrarily many ticks. -/
theorem MovingPlatform.runWrites_guard (dts : List ℚ) (s : MovingPlatform)
    (h : s.nodes.length = 0 ∨ s.duration = 0) :
    s.runWrites dts = some (s, dts.map fun _ => none) := by
  induction dts with
  | nil => rfl
  | cons dt rest ih =>
    simp [MovingPlatform.runWrites, MovingPlatform.Update_guard_noop s dt h, ih]

/-- CATMULL/BEZIER under-4-nodes case lifted to arbitrarily many ticks. -/
theorem MovingPlatform.runWrites_fewNodes (dts : List ℚ) (s : MovingPlatform)
    (hm : s.currentMode = .CATMULL ∨ s.currentMode = .BEZIER)
    (hn : s.nodes.length < 4) :
    ∃ s', s.runWrites dts = some (s', dts.map fun _ => none) ∧
      s'.nodes = s.nodes ∧ s'.duration = s.duration ∧
      s'.currentMode = s.currentMode := by
  induction dts generalizing s with
  | nil => exact ⟨s, rfl, rfl, rfl, rfl⟩
  | cons dt rest ih =>
    obtain ⟨s1, h1, hn1, hd1, hm1⟩ := MovingPlatform.Update_fewNodes s dt hm hn
    obtain ⟨s2, h2, hn2, hd2, hm2⟩ := ih s1 (by rw [hm1]; exact hm) (by rw [hn1]; exact hn)
    refine ⟨s2, ?_, by rw [hn2, hn1], by rw [hd2, hd1], by rw [hm2, hm1]⟩
    simp [MovingPlatform.runWrites, h1, h2]

/-- C7 (amended): the source's guard is `nodes.size() == 0` (not `< 2`)
or `duration == 0` — those configurations are complete no-ops for any
number of ticks; CATMULL/BEZIER with fewer than 4 nodes never writes a
position (and performs no out-of-bounds access) across any number of
ticks, though `timer`/`currentInd`/`forward` still advance. LERP with
exactly one node is NOT a no-op: it performs an out-of-bounds node read
(see the counterexample). -/
theorem degenerate_config_no_position_change (s : MovingPlatform) (dts : List ℚ) :
    (s.nodes.length = 0 ∨ s.duration = 0 →
      s.runWrites dts = some (s, dts.map fun _ => none)) ∧
    ((s.currentMode = .CATMULL ∨ s.currentMode = .BEZIER) → s.nodes.length < 4 →
      ∃ s', s.runWrites dts = some (s', dts.map fun _ => none) ∧
        s'.nodes = s.nodes ∧ s'.duration = s.duration ∧
        s'.currentMode = s.currentMode) :=
  ⟨MovingPlatform.runWrites_guard dts s,
   fun hm hn => MovingPlatform.runWrites_fewNodes dts s hm hn⟩

/-- Witness for C7's amended theorem: a 2-node CATMULL platform ticked
twice writes no position and keeps its configuration. -/
theorem degenerate_config_no_position_change_witness :
    ∃ s', MovingPlatform.runWrites
        { timer := 0, t := 0, duration := 1, forward := true,
          nodes := [⟨0,0,0⟩, ⟨1,2,3⟩], currentMode := .CATMULL,
          currentInd := 0, nextInd := 0 } [1, 1]
        = some (s', [none, none]) ∧
      s'.nodes = [⟨0,0,0⟩, ⟨1,2,3⟩] ∧ s'.duration = 1 ∧
      s'.currentMode = .CATMULL := by
  obtain ⟨s', h, hn, hd, hm⟩ :=
    (degenerate_config_no_position_change
      { timer := 0, t := 0, duration := 1, forward := true,
        nodes := [⟨0,0,0⟩, ⟨1,2,3⟩], currentMode := .CATMULL,
        currentInd := 0, nextInd := 0 } [1, 1]).2 (Or.inl rfl) (by norm_num)
  exact ⟨s', h, hn, hd, hm⟩

/-! ## C3 / C4 — the Seek steering law -/

/-- `glm::normalize` of the zero vector is the undefined case. -/
theorem glmNormalize_zero : glmNormalize 0 = .error .normZero := by
  rw [glmNormalize, if_pos rfl]

/-- `glm::normalize` of a nonzero vector is `v / ‖v‖`. -/
theorem glmNormalize_of_ne_zero (v : RVec3) (h : v ≠ 0) :
    glmNormalize v = .ok (RVec3.unit v) := by
  rw [glmNormalize, if_neg h]

/-- C3: a state in which `Seek` normalizes a zero-length velocity with no
special case is reachable: from the initial component, `throwWang` then
`UpdateTarget((1,0,0))` reaches POINTTRACK, and the very next tick with
linear velocity exactly zero runs `glm::normalize` on the zero vector
(division by zero) — both in `Seek` itself and through `Update`. -/
theorem seek_normalizes_zero_velocity_reachable :
    (applyOps {} [.throw ⟨0,0,0⟩ ⟨1,0,0⟩, .updateTarget ⟨1,0,0⟩]).state
      = BoomState.POINTTRACK ∧
    Boomerang.Seek (applyOps {} [.throw ⟨0,0,0⟩ ⟨1,0,0⟩, .updateTarget ⟨1,0,0⟩])
      ⟨0,0,0⟩ ⟨0,0,0⟩ 1 = .error .normZero ∧
    Boomerang.Update (applyOps {} [.throw ⟨0,0,0⟩ ⟨1,0,0⟩, .updateTarget ⟨1,0,0⟩])
      ⟨⟨0,0,0⟩, ⟨0,0,0⟩, fun _ => ⟨0,0,0⟩⟩ 1 = .error .normZero := by
  have hseek :
      Boomerang.Seek (applyOps {} [.throw ⟨0,0,0⟩ ⟨1,0,0⟩, .updateTarget ⟨1,0,0⟩])
        ⟨0,0,0⟩ ⟨0,0,0⟩ 1 = .error .normZero := by
    have htp : (applyOps {} [.throw ⟨0,0,0⟩ ⟨1,0,0⟩,
        .updateTarget ⟨1,0,0⟩]).targetPoint = ⟨1,0,0⟩ := rfl
    unfold Boomerang.Seek
    rw [htp]
    have h1 : (⟨1,0,0⟩ : RVec3) - ⟨0,0,0⟩ = ⟨1,0,0⟩ := by simp
    rw [h1, glmNormalize_of_ne_zero ⟨1,0,0⟩ (by simp)]
    have h0 : glmNormalize ⟨0,0,0⟩ = .error .normZero := glmNormalize_zero
    rw [show ((Except.ok (RVec3.unit ⟨1,0,0⟩) : Except SeekErr RVec3) >>= fun desired =>
        glmNormalize ⟨0,0,0⟩ >>= fun current =>
        glmNormalize (desired - current) >>= fun applied =>
        pure [BoomEffect.applyForce
          (((applyOps {} [.throw ⟨0,0,0⟩ ⟨1,0,0⟩,
              .updateTarget ⟨1,0,0⟩]).boomerangAcceleration * 1) • applied + ⟨0,0,9.8⟩)])
      = (glmNormalize ⟨0,0,0⟩ >>= fun current =>
        glmNormalize (RVec3.unit ⟨1,0,0⟩ - current) >>= fun applied =>
        pure [BoomEffect.applyForce
          (((applyOps {} [.throw ⟨0,0,0⟩ ⟨1,0,0⟩,
              .updateTarget ⟨1,0,0⟩]).boomerangAcceleration * 1) • applied + ⟨0,0,9.8⟩)])
      from rfl]
    rw [h0]
    rfl
  refine ⟨rfl, hseek, ?_⟩
  unfold Boomerang.Update
  rw [show (applyOps {} [.throw ⟨0,0,0⟩ ⟨1,0,0⟩, .updateTarget ⟨1,0,0⟩]).state
      = BoomState.POINTTRACK from rfl]
  rw [hseek]
  rfl

/-- Bind of a successful `Except` computation. -/
theorem exceptOkBind {α β ε : Type} (a : α) (f : α → Except ε β) :
    (Except.ok a >>= f) = f a := rfl

/-- C4: whenever `Seek(deltaTime)` runs with `targetPoint - position`,
the current velocity, and the difference of their normalizations all
nonzero, the one and only effect it issues is applying the force
`normalize(normalize(targetPoint - position) - normalize(velocity))
 * acceleration * deltaTime` plus the constant upward compensation term
`(0, 0, 9.8)`; no component state is read other than `_targetPoint` and
`_boomerangAcceleration` and none is modified. -/
theorem seek_force_law (s : Boomerang) (pos vel : RVec3) (dt : ℝ) (u w : RVec3)
    (hd : glmNormalize (s.targetPoint - pos) = .ok u)
    (hc : glmNormalize vel = .ok w)
    (hne : u - w ≠ 0) :
    s.Seek pos vel dt = .ok [.applyForce
      ((s.boomerangAcceleration * dt) • RVec3.unit (u - w) + ⟨0, 0, 9.8⟩)] := by
  unfold Boomerang.Seek
  rw [hd, hc]
  simp only [exceptOkBind]
  rw [glmNormalize_of_ne_zero _ hne]
  simp only [exceptOkBind]
  rfl

/-- Witness for C4: a POINTTRACK boomerang at the origin with target
`(1,0,0)` and velocity `(0,1,0)`; both normalize to themselves and their
difference is nonzero. -/
theorem seek_force_law_witness :
    Boomerang.Seek { state := .POINTTRACK, targetPoint := ⟨1,0,0⟩ } ⟨0,0,0⟩ ⟨0,1,0⟩ 1
      = .ok [.applyForce
        ((({ state := .POINTTRACK, targetPoint := ⟨1,0,0⟩ } : Boomerang).boomerangAcceleration * 1)
          • RVec3.unit (⟨1,0,0⟩ - ⟨0,1,0⟩) + ⟨0, 0, 9.8⟩)] := by
  refine seek_force_law { state := .POINTTRACK, targetPoint := ⟨1,0,0⟩ }
    ⟨0,0,0⟩ ⟨0,1,0⟩ 1 ⟨1,0,0⟩ ⟨0,1,0⟩ ?_ ?_ ?_
  · rw [show ((⟨1,0,0⟩ : RVec3) - ⟨0,0,0⟩) = ⟨1,0,0⟩ by simp,
      glmNormalize_of_ne_zero ⟨1,0,0⟩ (by simp)]
    have : RVec3.unit ⟨1,0,0⟩ = ⟨1,0,0⟩ := by simp [RVec3.unit, RVec3.len]
    rw [this]
  · rw [glmNormalize_of_ne_zero ⟨0,1,0⟩ (by simp)]
    have : RVec3.unit ⟨0,1,0⟩ = ⟨0,1,0⟩ := by simp [RVec3.unit, RVec3.len]
    rw [this]
  · simp

/-! ## C5 — the BEZIER case evaluates the Catmull-Rom blend -/

/-- Bind of a `some` over `Option`. -/
theorem optionSomeBind {α β : Type} (a : α) (f : α → Option β) :
    (some a >>= f) = f a := rfl

/-- Any position written by the `case BEZIER` block is the `Catmull`
blend of the four control points the block selects. -/
theorem updateBezierCase_writes (s : MovingPlatform) (dt : ℚ)
    (s' : MovingPlatform) (w : QVec3)
    (h : s.updateBezierCase dt = some (s', some w)) :
    ∃ q : QVec3 × QVec3 × QVec3 × QVec3,
      MovingPlatform.bezierPoints s'.nodes s'.currentInd s'.forward = some q ∧
      w = MovingPlatform.Catmull s'.t q.1 q.2.1 q.2.2.1 q.2.2.2 := by
  simp only [MovingPlatform.updateBezierCase] at h
  by_cases h4 : s.nodes.length < 4
  · rw [if_pos h4] at h
    simp at h
  · rw [if_neg h4] at h
    by_cases hf : (s.advance dt fun i => decide (i + 3 ≥ (s.nodes.length : ℤ))).fwd = true
    · rw [if_pos hf] at h
      cases h0 : MovingPlatform.getNode s.nodes
          (s.advance dt fun i => decide (i + 3 ≥ (s.nodes.length : ℤ))).ci with
      | none => rw [h0] at h; simp at h
      | some p0 =>
      cases h1 : MovingPlatform.getNode s.nodes
          ((s.advance dt fun i => decide (i + 3 ≥ (s.nodes.length : ℤ))).ci + 1) with
      | none => rw [h0, h1] at h; simp at h
      | some p1 =>
      cases h2 : MovingPlatform.getNode s.nodes
          ((s.advance dt fun i => decide (i + 3 ≥ (s.nodes.length : ℤ))).ci + 2) with
      | none => rw [h0, h1, h2] at h; simp at h
      | some p2 =>
      cases h3 : MovingPlatform.getNode s.nodes
          ((s.advance dt fun i => decide (i + 3 ≥ (s.nodes.length : ℤ))).ci + 3) with
      | none => rw [h0, h1, h2, h3] at h; simp at h
      | some p3 =>
      rw [h0, h1, h2, h3] at h
      simp only [optionSomeBind, Option.some.injEq, Prod.mk.injEq] at h
      obtain ⟨hs, hw⟩ := h
      subst hs
      refine ⟨(p0, p1, p2, p3), ?_, hw.symm⟩
      simp only [MovingPlatform.bezierPoints, hf]
      rw [h0, h1, h2, h3]
      rfl
    · rw [if_neg hf] at h
      rw [Bool.not_eq_true] at hf
      cases h0 : MovingPlatform.getNode s.nodes
          ((s.advance dt fun i => decide (i + 3 ≥ (s.nodes.length : ℤ))).ci + 2) with
      | none => rw [h0] at h; simp at h
      | some p0 =>
      cases h1 : MovingPlatform.getNode s.nodes
          ((s.advance dt fun i => decide (i + 3 ≥ (s.nodes.length : ℤ))).ci + 1) with
      | none => rw [h0, h1] at h; simp at h
      | some p1 =>
      cases h2 : MovingPlatform.getNode s.nodes
          (s.advance dt fun i => decide (i + 3 ≥ (s.nodes.length : ℤ))).ci with
      | none => rw [h0, h1, h2] at h; simp at h
      | some p2 =>
      cases h3 : MovingPlatform.getNode s.nodes
          ((s.advance dt fun i => decide (i + 3 ≥ (s.nodes.length : ℤ))).ci - 1) with
      | none => rw [h0, h1, h2, h3] at h; simp at h
      | some p3 =>
      rw [h0, h1, h2, h3] at h
      simp only [optionSomeBind, Option.some.injEq, Prod.mk.injEq] at h
      obtain ⟨hs, hw⟩ := h
      subst hs
      refine ⟨(p0, p1, p2, p3), ?_, hw.symm⟩
      simp only [MovingPlatform.bezierPoints, hf]
      rw [h0, h1, h2, h3]
      rfl

/-- The source's (unused) `Bezier` member function is the textbook cubic
Bezier basis. -/
theorem bezier_fn_is_true_basis (t : ℚ) (p0 p1 p2 p3 : QVec3) :
    MovingPlatform.Bezier t p0 p1 p2 p3 =
      ((1-t)^3) • p0 + (3*t*(1-t)^2) • p1 + (3*t^2*(1-t)) • p2 + (t^3) • p3 := by
  simp only [MovingPlatform.Bezier, QVec3.qadd_def, QVec3.qneg_def, QVec3.qsub_def,
    QVec3.qsmul_def]
  refine QVec3.mk.injEq .. ▸ ?_
  norm_num
  refine ⟨by ring, by ring, by ring⟩

/-- C5: every position written by a BEZIER-mode tick is the Catmull-Rom
blend `0.5*(2*p1 + t*(-p0+p2) + t^2*(2*p0-5*p1+4*p2-p3)
+ t^3*(-p0+3*p1-3*p2+p3))` of the four selected control points — and it
is not the true cubic Bezier basis: on a concrete 4-node configuration
the written position `(9/16,0,0)` differs from the Bezier-basis value
`(3/8,0,0)` on the same points and parameter. -/
theorem bezier_mode_evaluates_catmull_blend :
    (∀ (s : MovingPlatform) (dt : ℚ) (s' : MovingPlatform) (w : QVec3),
      s.currentMode = .BEZIER → s.Update dt = some (s', some w) →
      ∃ q : QVec3 × QVec3 × QVec3 × QVec3,
        MovingPlatform.bezierPoints s'.nodes s'.currentInd s'.forward = some q ∧
        w = (1/2 : ℚ) • ((2 : ℚ) • q.2.1 + s'.t • (-q.1 + q.2.2.1)
          + (s'.t * s'.t) • ((2 : ℚ) • q.1 - (5 : ℚ) • q.2.1 + (4 : ℚ) • q.2.2.1 - q.2.2.2)
          + (s'.t * s'.t * s'.t) • (-q.1 + (3 : ℚ) • q.2.1 - (3 : ℚ) • q.2.2.1 + q.2.2.2))) ∧
    (MovingPlatform.Update
        { timer := 0, t := 0, duration := 1, forward := true,
          nodes := [⟨0,0,0⟩, ⟨0,0,0⟩, ⟨1,0,0⟩, ⟨0,0,0⟩], currentMode := .BEZIER,
          currentInd := 0, nextInd := 0 } (1/2)
      = some ({ timer := 1/2, t := 1/2, duration := 1, forward := true,
                nodes := [⟨0,0,0⟩, ⟨0,0,0⟩, ⟨1,0,0⟩, ⟨0,0,0⟩], currentMode := .BEZIER,
                currentInd := 0, nextInd := 0 }, some ⟨9/16, 0, 0⟩) ∧
      (⟨9/16, 0, 0⟩ : QVec3) ≠ MovingPlatform.Bezier (1/2) ⟨0,0,0⟩ ⟨0,0,0⟩ ⟨1,0,0⟩ ⟨0,0,0⟩) := by
  refine ⟨?_, ?_, ?_⟩
  · intro s dt s' w hm hupd
    by_cases hg : s.nodes.length = 0 ∨ s.duration = 0
    · rw [MovingPlatform.Update_guard_noop s dt hg] at hupd
      simp at hupd
    · rw [MovingPlatform.Update_eq_bezierCase s dt hg hm] at hupd
      obtain ⟨q, hq, hw⟩ := updateBezierCase_writes s dt s' w hupd
      exact ⟨q, hq, by rw [hw]; rfl⟩
  · norm_num [MovingPlatform.Update, MovingPlatform.updateBezierCase,
      MovingPlatform.advance, MovingPlatform.getNode, MovingPlatform.Catmull]
    norm_num [show ((2:ℤ).toNat) = 2 from rfl, show ((3:ℤ).toNat) = 3 from rfl,
      List.getElem_cons_zero, List.getElem_cons_succ]
  · norm_num [MovingPlatform.Bezier]

/-- Witness for C5: the concrete BEZIER tick of the theorem's second
conjunct, fed through the theorem's first conjunct. -/
theorem bezier_mode_evaluates_catmull_blend_witness :
    ∃ q : QVec3 × QVec3 × QVec3 × QVec3,
      MovingPlatform.bezierPoints [⟨0,0,0⟩, ⟨0,0,0⟩, ⟨1,0,0⟩, ⟨0,0,0⟩] 0 true = some q ∧
      (⟨9/16, 0, 0⟩ : QVec3) = (1/2 : ℚ) • ((2 : ℚ) • q.2.1 + (1/2 : ℚ) • (-q.1 + q.2.2.1)
        + ((1/2 : ℚ) * (1/2)) • ((2 : ℚ) • q.1 - (5 : ℚ) • q.2.1 + (4 : ℚ) • q.2.2.1 - q.2.2.2)
        + ((1/2 : ℚ) * (1/2) * (1/2)) • (-q.1 + (3 : ℚ) • q.2.1 - (3 : ℚ) • q.2.2.1 + q.2.2.2)) :=
  bezier_mode_evaluates_catmull_blend.1
    { timer := 0, t := 0, duration := 1, forward := true,
      nodes := [⟨0,0,0⟩, ⟨0,0,0⟩, ⟨1,0,0⟩, ⟨0,0,0⟩], currentMode := .BEZIER,
      currentInd := 0, nextInd := 0 } (1/2)
    { timer := 1/2, t := 1/2, duration := 1, forward := true,
      nodes := [⟨0,0,0⟩, ⟨0,0,0⟩, ⟨1,0,0⟩, ⟨0,0,0⟩], currentMode := .BEZIER,
      currentInd := 0, nextInd := 0 } ⟨9/16, 0, 0⟩ rfl
    bezier_mode_evaluates_catmull_blend.2.1

/-! ## C9 — LERP ping-pong over three nodes -/

/-- `advance` when the segment timer has not yet crossed the boundary. -/
theorem advance_stay (s : MovingPlatform) (dt : ℚ) (f : ℤ → Bool)
    (hb : ¬ (s.timer + dt) / s.duration > 1) :
    s.advance dt f = ⟨s.timer + dt, (s.timer + dt) / s.duration, s.currentInd, s.forward⟩ := by
  unfold MovingPlatform.advance
  rw [if_neg hb]

/-- `advance` crossing a boundary while traversing forward. -/
theorem advance_cross_fwd (s : MovingPlatform) (dt : ℚ) (f : ℤ → Bool)
    (hb : (s.timer + dt) / s.duration > 1) (hfw : s.forward = true) :
    s.advance dt f = ⟨0, 0, s.currentInd + 1,
      if f (s.currentInd + 1) then false else true⟩ := by
  unfold MovingPlatform.advance
  rw [if_pos hb, hfw]
  simp

/-- `advance` crossing a boundary while traversing backward. -/
theorem advance_cross_bwd (s : MovingPlatform) (dt : ℚ) (f : ℤ → Bool)
    (hb : (s.timer + dt) / s.duration > 1) (hfw : s.forward = false) :
    s.advance dt f = ⟨0, 0, s.currentInd - 1,
      if s.currentInd - 1 = 0 then true else false⟩ := by
  unfold MovingPlatform.advance
  rw [if_pos hb, hfw]
  simp

/-- `nodes[0]` of a 3-node list. -/
theorem getNode3_zero (u v w : QVec3) : MovingPlatform.getNode [u,v,w] 0 = some u := by
  simp [MovingPlatform.getNode]

/-- `nodes[1]` of a 3-node list. -/
theorem getNode3_one (u v w : QVec3) : MovingPlatform.getNode [u,v,w] 1 = some v := by
  simp [MovingPlatform.getNode]

/-- `nodes[2]` of a 3-node list. -/
theorem getNode3_two (u v w : QVec3) : MovingPlatform.getNode [u,v,w] 2 = some w := by
  simp [MovingPlatform.getNode]

/-- One LERP tick over nodes `[u, v, w]` from any `(currentInd, forward)`
pair on the ping-pong cycle: the tick succeeds, writes a position, stays
on the cycle moving zero or one step along it, and flips `forward`
exactly on the two boundary transitions `(1,fwd)→(2,bwd)` (far end) and
`(1,bwd)→(0,fwd)` (index 0). -/
theorem lerp3_tick (u v w : QVec3) (d dt : ℚ) (hd : d ≠ 0) (s : MovingPlatform)
    (hn : s.nodes = [u, v, w]) (hdur : s.duration = d) (hm : s.currentMode = .LERP)
    (hcyc : (s.currentInd, s.forward) ∈ lerp3Cycle) :
    ∃ s' pos, s.Update dt = some (s', some pos) ∧
      s'.nodes = [u, v, w] ∧ s'.duration = d ∧ s'.currentMode = .LERP ∧
      (s'.currentInd, s'.forward) ∈ lerp3Cycle ∧
      ((s'.currentInd, s'.forward) = (s.currentInd, s.forward) ∨
        (s'.currentInd, s'.forward) = cycNext (s.currentInd, s.forward)) ∧
      (s'.forward ≠ s.forward ↔
        ((s.currentInd, s.forward) = ((1:ℤ), true) ∧ (s'.currentInd, s'.forward) = ((2:ℤ), false)) ∨
        ((s.currentInd, s.forward) = ((1:ℤ), false) ∧ (s'.currentInd, s'.forward) = ((0:ℤ), true))) := by
  have hg : ¬(s.nodes.length = 0 ∨ s.duration = 0) := by
    rw [hn, hdur]; simp [hd]
  rw [MovingPlatform.Update_eq_lerpCase s dt hg hm]
  have hcyc' : (s.currentInd = 0 ∧ s.forward = true) ∨ (s.currentInd = 1 ∧ s.forward = true) ∨
      (s.currentInd = 2 ∧ s.forward = false) ∨ (s.currentInd = 1 ∧ s.forward = false) := by
    simpa [lerp3Cycle, Prod.ext_iff] using hcyc
  by_cases hb : (s.timer + dt) / s.duration > 1
  · rcases hcyc' with ⟨hci, hfw⟩ | ⟨hci, hfw⟩ | ⟨hci, hfw⟩ | ⟨hci, hfw⟩
    · -- crossing from (0, fwd): advance to (1, fwd), read (v, w)
      have hadv : s.advance dt (fun i => decide (i ≥ (s.nodes.length : ℤ) - 1))
          = ⟨0, 0, 1, true⟩ := by
        rw [advance_cross_fwd s dt _ hb hfw, hci, hn]
        norm_num
      have hupd : s.updateLerpCase dt
          = some ({ s with timer := 0, t := 0, currentInd := 1, forward := true },
            some (MovingPlatform.Lerp 0 v w)) := by
        simp only [MovingPlatform.updateLerpCase]
        rw [hadv]
        simp only [hn]
        norm_num [getNode3_one, getNode3_two, optionSomeBind]
      refine ⟨_, _, hupd, hn, hdur, hm, ?_, ?_, ?_⟩ <;> simp [lerp3Cycle, cycNext, hci, hfw]
    · -- crossing from (1, fwd): advance hits the far end, flip to (2, bwd), read (w, v)
      have hadv : s.advance dt (fun i => decide (i ≥ (s.nodes.length : ℤ) - 1))
          = ⟨0, 0, 2, false⟩ := by
        rw [advance_cross_fwd s dt _ hb hfw, hci, hn]
        norm_num
      have hupd : s.updateLerpCase dt
          = some ({ s with timer := 0, t := 0, currentInd := 2, forward := false },
            some (MovingPlatform.Lerp 0 w v)) := by
        simp only [MovingPlatform.updateLerpCase]
        rw [hadv]
        simp only [hn]
        norm_num [getNode3_one, getNode3_two, optionSomeBind]
      refine ⟨_, _, hupd, hn, hdur, hm, ?_, ?_, ?_⟩ <;> simp [lerp3Cycle, cycNext, hci, hfw]
    · -- crossing from (2, bwd): advance to (1, bwd), read (v, u)
      have hadv : s.advance dt (fun i => decide (i ≥ (s.nodes.length : ℤ) - 1))
          = ⟨0, 0, 1, false⟩ := by
        rw [advance_cross_bwd s dt _ hb hfw, hci]
        norm_num
      have hupd : s.updateLerpCase dt
          = some ({ s with timer := 0, t := 0, currentInd := 1, forward := false },
            some (MovingPlatform.Lerp 0 v u)) := by
        simp only [MovingPlatform.updateLerpCase]
        rw [hadv]
        simp only [hn]
        norm_num [getNode3_zero, getNode3_one, optionSomeBind]
      refine ⟨_, _, hupd, hn, hdur, hm, ?_, ?_, ?_⟩ <;> simp [lerp3Cycle, cycNext, hci, hfw]
    · -- crossing from (1, bwd): advance hits index 0, flip to (0, fwd), read (u, v)
      have hadv : s.advance dt (fun i => decide (i ≥ (s.nodes.length : ℤ) - 1))
          = ⟨0, 0, 0, true⟩ := by
        rw [advance_cross_bwd s dt _ hb hfw, hci]
        norm_num
      have hupd : s.updateLerpCase dt
          = some ({ s with timer := 0, t := 0, currentInd := 0, forward := true },
            some (MovingPlatform.Lerp 0 u v)) := by
        simp only [MovingPlatform.updateLerpCase]
        rw [hadv]
        simp only [hn]
        norm_num [getNode3_zero, getNode3_one, optionSomeBind]
      refine ⟨_, _, hupd, hn, hdur, hm, ?_, ?_, ?_⟩ <;> simp [lerp3Cycle, cycNext, hci, hfw]
  · have hadv : s.advance dt (fun i => decide (i ≥ (s.nodes.length : ℤ) - 1))
        = ⟨s.timer + dt, (s.timer + dt) / s.duration, s.currentInd, s.forward⟩ :=
      advance_stay s dt _ hb
    rcases hcyc' with ⟨hci, hfw⟩ | ⟨hci, hfw⟩ | ⟨hci, hfw⟩ | ⟨hci, hfw⟩
    · -- staying on (0, fwd): read (u, v)
      have hupd : s.updateLerpCase dt
          = some ({ s with timer := s.timer + dt, t := (s.timer + dt) / s.duration,
                           currentInd := 0, forward := true },
            some (MovingPlatform.Lerp ((s.timer + dt) / s.duration) u v)) := by
        simp only [MovingPlatform.updateLerpCase]
        rw [hadv]
        simp only [hn, hci, hfw]
        norm_num [getNode3_zero, getNode3_one, optionSomeBind]
      refine ⟨_, _, hupd, hn, hdur, hm, ?_, ?_, ?_⟩ <;> simp [lerp3Cycle, cycNext, hci, hfw]
    · -- staying on (1, fwd): read (v, w)
      have hupd : s.updateLerpCase dt
          = some ({ s with timer := s.timer + dt, t := (s.timer + dt) / s.duration,
                           currentInd := 1, forward := true },
            some (MovingPlatform.Lerp ((s.timer + dt) / s.duration) v w)) := by
        simp only [MovingPlatform.updateLerpCase]
        rw [hadv]
        simp only [hn, hci, hfw]
        norm_num [getNode3_one, getNode3_two, optionSomeBind]
      refine ⟨_, _, hupd, hn, hdur, hm, ?_, ?_, ?_⟩ <;> simp [lerp3Cycle, cycNext, hci, hfw]
    · -- staying on (2, bwd): read (w, v)
      have hupd : s.updateLerpCase dt
          = some ({ s with timer := s.timer + dt, t := (s.timer + dt) / s.duration,
                           currentInd := 2, forward := false },
            some (MovingPlatform.Lerp ((s.timer + dt) / s.duration) w v)) := by
        simp only [MovingPlatform.updateLerpCase]
        rw [hadv]
        simp only [hn, hci, hfw]
        norm_num [getNode3_one, getNode3_two, optionSomeBind]
      refine ⟨_, _, hupd, hn, hdur, hm, ?_, ?_, ?_⟩ <;> simp [lerp3Cycle, cycNext, hci, hfw]
    · -- staying on (1, bwd): read (v, u)
      have hupd : s.updateLerpCase dt
          = some ({ s with timer := s.timer + dt, t := (s.timer + dt) / s.duration,
                           currentInd := 1, forward := false },
            some (MovingPlatform.Lerp ((s.timer + dt) / s.duration) v u)) := by
        simp only [MovingPlatform.updateLerpCase]
        rw [hadv]
        simp only [hn, hci, hfw]
        norm_num [getNode3_zero, getNode3_one, optionSomeBind]
      refine ⟨_, _, hupd, hn, hdur, hm, ?_, ?_, ?_⟩ <;> simp [lerp3Cycle, cycNext, hci, hfw]

/-- The ping-pong cycle invariant survives any sequence of LERP ticks. -/
theorem lerp3_run (u v w : QVec3) (d : ℚ) (hd : d ≠ 0) (dts : List ℚ) (s : MovingPlatform)
    (hn : s.nodes = [u, v, w]) (hdur : s.duration = d) (hm : s.currentMode = .LERP)
    (hcyc : (s.currentInd, s.forward) ∈ lerp3Cycle) :
    ∃ s', s.run dts = some s' ∧ s'.nodes = [u, v, w] ∧ s'.duration = d ∧
      s'.currentMode = .LERP ∧ (s'.currentInd, s'.forward) ∈ lerp3Cycle := by
  induction dts generalizing s with
  | nil => exact ⟨s, rfl, hn, hdur, hm, hcyc⟩
  | cons dt rest ih =>
    obtain ⟨s1, pos, h1, hn1, hd1, hm1, hc1, _, _⟩ :=
      lerp3_tick u v w d dt hd s hn hdur hm hcyc
    obtain ⟨s2, h2, hn2, hd2, hm2, hc2⟩ := ih s1 hn1 hd1 hm1 hc1
    refine ⟨s2, ?_, hn2, hd2, hm2, hc2⟩
    simp [MovingPlatform.run, h1, h2]

/-- On the cycle, the interpolation segment the LERP read block selects
is exactly the one listed for the cycle position: `(u,v)`, `(v,w)`,
`(w,v)`, `(v,u)` in traversal order. -/
theorem lerp3_segment (u v w : QVec3) (s : MovingPlatform) (hn : s.nodes = [u, v, w])
    (hcyc : (s.currentInd, s.forward) ∈ lerp3Cycle) :
    s.lerpSegment = some (cycSeg u v w (s.currentInd, s.forward)) := by
  have hcyc' : (s.currentInd = 0 ∧ s.forward = true) ∨ (s.currentInd = 1 ∧ s.forward = true) ∨
      (s.currentInd = 2 ∧ s.forward = false) ∨ (s.currentInd = 1 ∧ s.forward = false) := by
    simpa [lerp3Cycle, Prod.ext_iff] using hcyc
  rcases hcyc' with ⟨hci, hfw⟩ | ⟨hci, hfw⟩ | ⟨hci, hfw⟩ | ⟨hci, hfw⟩ <;>
    norm_num [MovingPlatform.lerpSegment, cycSeg, hn, hci, hfw,
      getNode3_zero, getNode3_one, getNode3_two, optionSomeBind]

/-- C9: a LERP platform over `[P0, P1, P2]` with positive duration,
started fresh (`currentInd = 0`, `forward = true`, `elapsed = 0`), stays
on the four-position ping-pong cycle whose segments are
`(P0,P1), (P1,P2), (P2,P1), (P1,P0)` in order; each further tick either
keeps the cycle position or advances it one step, and the traversal
direction flips exactly on the two transitions entering the far end and
re-entering index 0 — once per full traversal each way, no more and no
fewer. -/
theorem lerp_three_node_pingpong (u v w : QVec3) (d : ℚ) (dts : List ℚ) (hd : 0 < d) :
    ∃ s', (MovingPlatform.init.SetNodes [u, v, w] d).run dts = some s' ∧
      (s'.currentInd, s'.forward) ∈ lerp3Cycle ∧
      s'.lerpSegment = some (cycSeg u v w (s'.currentInd, s'.forward)) ∧
      ∀ dt : ℚ, ∃ s'' pos, s'.Update dt = some (s'', some pos) ∧
        ((s''.currentInd, s''.forward) = (s'.currentInd, s'.forward) ∨
          (s''.currentInd, s''.forward) = cycNext (s'.currentInd, s'.forward)) ∧
        (s''.forward ≠ s'.forward ↔
          ((s'.currentInd, s'.forward) = ((1:ℤ), true) ∧
            (s''.currentInd, s''.forward) = ((2:ℤ), false)) ∨
          ((s'.currentInd, s'.forward) = ((1:ℤ), false) ∧
            (s''.currentInd, s''.forward) = ((0:ℤ), true))) := by
  have hd' : d ≠ 0 := ne_of_gt hd
  obtain ⟨s', hrun, hn', hdur', hm', hcyc'⟩ :=
    lerp3_run u v w d hd' dts (MovingPlatform.init.SetNodes [u, v, w] d) rfl rfl rfl
      (by simp [lerp3Cycle, MovingPlatform.init, MovingPlatform.SetNodes])
  refine ⟨s', hrun, hcyc', lerp3_segment u v w s' hn' hcyc', fun dt => ?_⟩
  obtain ⟨s'', pos, hu, _, _, _, _, hstep, hflip⟩ :=
    lerp3_tick u v w d dt hd' s' hn' hdur' hm' hcyc'
  exact ⟨s'', pos, hu, hstep, hflip⟩

/-- Witness for C9: nodes `[(0,0,0), (1,0,0), (2,0,0)]`, duration 1, two
boundary-crossing ticks of 2 seconds each. -/
theorem lerp_three_node_pingpong_witness :
    ∃ s', (MovingPlatform.init.SetNodes [⟨0,0,0⟩, ⟨1,0,0⟩, ⟨2,0,0⟩] 1).run [2, 2] = some s' ∧
      (s'.currentInd, s'.forward) ∈ lerp3Cycle ∧
      s'.lerpSegment = some (cycSeg ⟨0,0,0⟩ ⟨1,0,0⟩ ⟨2,0,0⟩ (s'.currentInd, s'.forward)) ∧
      ∀ dt : ℚ, ∃ s'' pos, s'.Update dt = some (s'', some pos) ∧
        ((s''.currentInd, s''.forward) = (s'.currentInd, s'.forward) ∨
          (s''.currentInd, s''.forward) = cycNext (s'.currentInd, s'.forward)) ∧
        (s''.forward ≠ s'.forward ↔
          ((s'.currentInd, s'.forward) = ((1:ℤ), true) ∧
            (s''.currentInd, s''.forward) = ((2:ℤ), false)) ∨
          ((s'.currentInd, s'.forward) = ((1:ℤ), false) ∧
            (s''.currentInd, s''.forward) = ((0:ℤ), true))) :=
  lerp_three_node_pingpong ⟨0,0,0⟩ ⟨1,0,0⟩ ⟨2,0,0⟩ 1 [2, 2] (by norm_num)
